import Mathlib

/-!
Verification of the SAS-parser/lineage-extractor core against its
natural-language specification.

The development shallowly embeds the Python sources:
  * `ast_nodes.py`        → the `Node` inductive and `nodeToString` (the
                            canonical stringifier, one rendering rule per
                            `__str__` method);
  * `sas_transformer.py`  → `data_step`, `proc_step`, `variable_rule`,
                            `do_iterative_loop`, `condition`, `program_rule`;
  * `lineage_extractor.py`→ `varsOf` (the recursive variable walk),
                            `extract_data_step_metadata`, `extract_lineage`.

Modelling conventions:
  * Python `None` flowing through transformer children is `Option.none`;
    bare Python strings flowing as children (e.g. the result of the
    `comparison_op` rule) are embedded as `Node.pyStr`; Python lists and
    tuples stored inside `DatasetOption.value` are `Node.pyList` /
    `Node.pyPair`.
  * Fallible Python code (exceptions such as `ValueError` raised by the
    `condition` rule, or `AttributeError`/`IndexError` crashes on
    malformed shapes) is embedded with `Option`/`Except` results.
  * Machine floats never matter to any claim; a float literal carries its
    source token verbatim in `LitVal.floatVal` (Python would store the
    parsed float and print its repr — no claim touches a float literal).
  * Duck-typed attribute accesses in the extractor are modelled for the
    constructors the transformer can actually place in the accessed
    field (e.g. `DataStep.by_statement` only ever holds a `ByStatement`
    or `None` — see `data_step`); other constructors are mapped to
    failure (`none`).
-/

set_option linter.unusedVariables false

/-- Value payload of a `Literal` node: Python stores an `int`, a `float`
or a `str` (`ast_nodes.py`, `Literal.value`). -/
inductive LitVal where
  | intVal (n : Int)
  | floatVal (tok : String)
  | strVal (s : String)

/-- One constructor per dataclass of `ast_nodes.py`, plus `pyStr`,
`pyList` and `pyPair` embedding the bare Python strings, lists and
tuples that flow through transformer children and `DatasetOption.value`.
Field types follow the values the transformer actually stores. -/
inductive Node where
  | datasetRef (library : Option String) (dataset : String)
  | var (name : String)
  | literal (value : LitVal) (data_type : String)
  | binaryOperation (left : Node) (operator : Node) (right : Node)
  | assignment (target : Node) (expression : Node)
  | condition (expression : Node)
  | ifStatement (cond : Node) (then_statement : Node)
  | datasetOption (name : String) (value : Node)
  | setStatement (dataset : Node) (options : List Node)
  | mergeStatement (datasets : List Node) (options : List Node)
  | byStatement (vars : List Node)
  | whereClause (cond : Node)
  | dataStep (output_dataset : Option Node) (set_statement : Option Node)
      (merge_statement : Option Node) (by_statement : Option Node)
      (where_clause : Option Node) (statements : List Node)
  | procStep (procedure : String) (dataset : Option Node) (options : List Node)
      (statements : List Node)
  | keepStatement (vars : List Node)
  | dropStatement (vars : List Node)
  | renameStatement (renames : List (Node × Node))
  | inputStatement (vars : List Node) (input_specs : Option (List String))
  | putStatement (vars : List Node) (output_specs : Option (List String))
  | infileStatement (filename : String) (options : List Node)
  | fileStatement (filename : String) (options : List Node)
  | formatStatement (format_assignments : List (List Node × String))
  | informatStatement (informat_assignments : List (List Node × String))
  | labelStatement (label_assignments : List (Node × String))
  | doBlock (statements : List Node)
  | doWhileLoop (cond : Node) (statements : List Node)
  | doUntilLoop (cond : Node) (statements : List Node)
  | iterativeDoLoop (loop_var : Option Node) (start_value : Option Node)
      (end_value : Option Node) (by_value : Option Node) (statements : List Node)
  | outputStatement (dataset : Option Node)
  | retainStatement (vars : List Node) (initial_values : Option (List (Option Node)))
  | lengthStatement (length_assignments : List (List Node × Node))
  | stopStatement
  | deleteStatement
  | program (statements : List Node)
  | pyStr (s : String)
  | pyList (items : List Node)
  | pyPair (fst : Node) (snd : Node)

/-- Python truthiness of an embedded value: `None`, `""` and `[]` are
falsy, every dataclass instance (even `Literal(0)`) is truthy, because
no AST dataclass defines `__bool__`/`__len__`. -/
def truthy : Option Node → Bool
  | none => false
  | some (.pyStr "") => false
  | some (.pyList []) => false
  | some _ => true

/-- Python `str()` of a `Literal.value` payload.  For `floatVal` the
source token is returned verbatim (see the header note on floats). -/
def litValStr : LitVal → String
  | .intVal n => toString n
  | .floatVal tok => tok
  | .strVal s => s

/-- Two-space indentation applied by the step/block `__str__` methods:
`f"  {stmt}"` prefixes only the first line of a nested rendering. -/
def indent2 (lines : List String) : List String :=
  lines.map (fun l => "  " ++ l)


/-- ASCII uppercase of one character (Python `str.upper` restricted to
ASCII, which covers every identifier the grammar tokenizes). -/
def asciiUpperChar (c : Char) : Char :=
  if 97 ≤ c.toNat ∧ c.toNat ≤ 122 then Char.ofNat (c.toNat - 32) else c

/-- ASCII `str.upper`. -/
def asciiUpper (s : String) : String :=
  ⟨s.data.map asciiUpperChar⟩

/-- ASCII lowercase of one character. -/
def asciiLowerChar (c : Char) : Char :=
  if 65 ≤ c.toNat ∧ c.toNat ≤ 90 then Char.ofNat (c.toNat + 32) else c

/-- ASCII `str.lower` (used for the case-insensitive option-name
dispatch). -/
def asciiLower (s : String) : String :=
  ⟨s.data.map asciiLowerChar⟩

/-- Code-point comparison of character lists: Python's `<` on strings. -/
def charListLtB : List Char → List Char → Bool
  | _, [] => false
  | [], _ :: _ => true
  | a :: as, b :: bs =>
      a.toNat < b.toNat || (a.toNat == b.toNat && charListLtB as bs)

/-- Python's lexicographic `<` on strings (by code point). -/
def strLtB (a b : String) : Bool :=
  charListLtB a.data b.data

/-- Python's `<=` on strings. -/
def strLeB (a b : String) : Bool :=
  strLtB a b || a == b

/-- Insert into a `strLeB`-sorted list. -/
def insertSorted (s : String) : List String → List String
  | [] => [s]
  | t :: ts => if strLeB s t then s :: t :: ts else t :: insertSorted s ts

/-- Python `sorted` on a list of strings (insertion sort; on the
duplicate-free lists produced by the set accumulation the result is the
unique strictly ascending reordering, so stability is irrelevant). -/
def sortStrs : List String → List String
  | [] => []
  | s :: rest => insertSorted s (sortStrs rest)

def joinSpace (parts : List String) : String :=
  String.intercalate " " parts


/-- Combine rendered `INPUT`/`PUT` variables with their format specs:
`f"{var} {spec}".strip()` where `spec` is `specs[i]` if `i < len(specs)`
else `""`. -/
def combineSpecs : List String → List String → List String
  | [], _ => []
  | v :: vs, [] => (v ++ " ").trim :: combineSpecs vs []
  | v :: vs, s :: ss => (v ++ " " ++ s).trim :: combineSpecs vs ss

/-- Combine rendered `RETAIN` variables with their rendered initial
values: `f"{var} {init}"` when an initial value is present at the
variable's index, else just the variable. -/
def combineRetain : List String → List (Option String) → List String
  | [], _ => []
  | v :: vs, [] => v :: combineRetain vs []
  | v :: vs, none :: is => v :: combineRetain vs is
  | v :: vs, some s :: is => (v ++ " " ++ s) :: combineRetain vs is

mutual

/-- Canonical stringifier: the union of the `__str__` methods of
`ast_nodes.py`, one match arm per dataclass.  `pyList`/`pyPair` in a
rendered position would print the Python repr, which no transformer
output ever does; they render as fixed markers here. -/
def nodeToString : Node → String
  | .datasetRef lib ds =>
      (match lib with
       | some l => if l == "" then ds else l ++ "." ++ ds
       | none => ds)
  | .var name => name
  | .literal v dt =>
      if dt == "string" then "\"" ++ litValStr v ++ "\"" else litValStr v
  | .binaryOperation l op r =>
      "(" ++ nodeToString l ++ " " ++ nodeToString op ++ " " ++ nodeToString r ++ ")"
  | .assignment v e => nodeToString v ++ " = " ++ nodeToString e ++ ";"
  | .condition e => nodeToString e
  | .ifStatement c t => "IF " ++ nodeToString c ++ " THEN " ++ nodeToString t
  | .datasetOption nm v =>
      if asciiLower nm == "keep" || asciiLower nm == "drop" then
        match v with
        | .pyList items => nm ++ "=" ++ joinSpace (tsList items)
        | v' => nm ++ "=" ++ nodeToString v'
      else if asciiLower nm == "rename" then
        match v with
        | .pyList items => nm ++ "=(" ++ joinSpace (tsRenameItems items) ++ ")"
        | v' => nm ++ "=" ++ nodeToString v'
      else nm ++ "=" ++ nodeToString v
  | .setStatement ds opts =>
      if opts.isEmpty then "SET " ++ nodeToString ds ++ ";"
      else "SET " ++ nodeToString ds ++ " (" ++ String.intercalate ", " (tsList opts) ++ ");"
  | .mergeStatement dss opts =>
      if opts.isEmpty then "MERGE " ++ joinSpace (tsList dss) ++ ";"
      else "MERGE " ++ joinSpace (tsList dss) ++ " (" ++
        String.intercalate ", " (tsList opts) ++ ");"
  | .byStatement vs => "BY " ++ joinSpace (tsList vs) ++ ";"
  | .whereClause c => "WHERE " ++ nodeToString c ++ ";"
  | .dataStep o s m b w stmts =>
      String.intercalate "\n"
        (((match o with
           | some d => if truthy (some d) then "DATA " ++ nodeToString d ++ ";" else "DATA;"
           | none => "DATA;") ::
          (match s with
           | some n => if truthy (some n) then ["  " ++ nodeToString n] else []
           | none => []) ++
          (match m with
           | some n => if truthy (some n) then ["  " ++ nodeToString n] else []
           | none => []) ++
          (match b with
           | some n => if truthy (some n) then ["  " ++ nodeToString n] else []
           | none => []) ++
          (match w with
           | some n => if truthy (some n) then ["  " ++ nodeToString n] else []
           | none => []) ++
          indent2 (tsList stmts)) ++ ["RUN;"])
  | .procStep name d opts stmts =>
      String.intercalate "\n"
        ((("PROC " ++ asciiUpper name ++
           (match d with
            | some n => if truthy (some n) then " DATA=" ++ nodeToString n else ""
            | none => "") ++
           (if opts.isEmpty then "" else " " ++ joinSpace (tsList opts)) ++ ";") ::
          indent2 (tsList stmts)) ++ ["RUN;"])
  | .keepStatement vs => "KEEP " ++ joinSpace (tsList vs) ++ ";"
  | .dropStatement vs => "DROP " ++ joinSpace (tsList vs) ++ ";"
  | .renameStatement renames => "RENAME " ++ joinSpace (tsPairsEq renames) ++ ";"
  | .inputStatement vs specs =>
      (match specs with
       | some (s0 :: ss) => "INPUT " ++ joinSpace (combineSpecs (tsList vs) (s0 :: ss)) ++ ";"
       | _ => "INPUT " ++ joinSpace (tsList vs) ++ ";")
  | .putStatement vs specs =>
      (match specs with
       | some (s0 :: ss) => "PUT " ++ joinSpace (combineSpecs (tsList vs) (s0 :: ss)) ++ ";"
       | _ => "PUT " ++ joinSpace (tsList vs) ++ ";")
  | .infileStatement fn opts =>
      if opts.isEmpty then "INFILE " ++ fn ++ ";"
      else "INFILE " ++ fn ++ " " ++ joinSpace (tsList opts) ++ ";"
  | .fileStatement fn opts =>
      if opts.isEmpty then "FILE " ++ fn ++ ";"
      else "FILE " ++ fn ++ " " ++ joinSpace (tsList opts) ++ ";"
  | .formatStatement asgs => "FORMAT " ++ joinSpace (tsSpecAsgs asgs) ++ ";"
  | .informatStatement asgs => "INFORMAT " ++ joinSpace (tsSpecAsgs asgs) ++ ";"
  | .labelStatement asgs => "LABEL " ++ joinSpace (tsLabelAsgs asgs) ++ ";"
  | .doBlock stmts =>
      String.intercalate "\n" (("DO;" :: indent2 (tsList stmts)) ++ ["END;"])
  | .doWhileLoop c stmts =>
      String.intercalate "\n"
        ((("DO WHILE (" ++ nodeToString c ++ ");") :: indent2 (tsList stmts)) ++ ["END;"])
  | .doUntilLoop c stmts =>
      String.intercalate "\n"
        ((("DO UNTIL (" ++ nodeToString c ++ ");") :: indent2 (tsList stmts)) ++ ["END;"])
  | .iterativeDoLoop v s e b stmts =>
      String.intercalate "\n"
        ((("DO " ++ tsOpt v ++ " = " ++ tsOpt s ++ " TO " ++ tsOpt e ++
           (match b with
            | some n => if truthy (some n) then " BY " ++ nodeToString n else ""
            | none => "") ++ ";") :: indent2 (tsList stmts)) ++ ["END;"])
  | .outputStatement d =>
      (match d with
       | some n => if truthy (some n) then "OUTPUT " ++ nodeToString n ++ ";" else "OUTPUT;"
       | none => "OUTPUT;")
  | .retainStatement vs inits =>
      (match inits with
       | some (i0 :: irest) =>
           "RETAIN " ++ joinSpace (combineRetain (tsList vs) (tsOptStrs (i0 :: irest))) ++ ";"
       | _ => "RETAIN " ++ joinSpace (tsList vs) ++ ";")
  | .lengthStatement asgs => "LENGTH " ++ joinSpace (tsLenAsgs asgs) ++ ";"
  | .stopStatement => "STOP;"
  | .deleteStatement => "DELETE;"
  | .program stmts => String.intercalate "\n\n" (tsList stmts)
  | .pyStr s => s
  | .pyList _ => "<pylist>"
  | .pyPair _ _ => "<pytuple>"
termination_by structural n => n

/-- Python `str(x)` where `x` may be `None` (used for the positional
header fields of `IterativeDoLoop`). -/
def tsOpt : Option Node → String
  | none => "None"
  | some n => nodeToString n
termination_by structural o => o

/-- Stringify each node of a list. -/
def tsList : List Node → List String
  | [] => []
  | n :: ns => nodeToString n :: tsList ns
termination_by structural l => l

/-- Rendering of `rename` option items: Python unpacks each item as an
`(old, new)` tuple; a non-tuple item would crash (unreachable from the
transformer), rendered as its own string here. -/
def tsRenameItems : List Node → List String
  | [] => []
  | x :: rest =>
      (match x with
       | .pyPair o n => nodeToString o ++ "=" ++ nodeToString n
       | x' => nodeToString x') :: tsRenameItems rest
termination_by structural l => l

/-- Rendering of `RenameStatement.renames` pairs: `f"{old}={new}"`. -/
def tsPairsEq : List (Node × Node) → List String
  | [] => []
  | (o, n) :: rest => (nodeToString o ++ "=" ++ nodeToString n) :: tsPairsEq rest
termination_by structural l => l

/-- Render each entry of `RETAIN.initial_values` (entries may be `None`). -/
def tsOptStrs : List (Option Node) → List (Option String)
  | [] => []
  | none :: rest => none :: tsOptStrs rest
  | some n :: rest => some (nodeToString n) :: tsOptStrs rest
termination_by structural l => l

/-- Rendering of `FORMAT`/`INFORMAT` assignments: variables then the
format string. -/
def tsSpecAsgs : List (List Node × String) → List String
  | [] => []
  | (vs, spec) :: rest => (joinSpace (tsList vs) ++ " " ++ spec) :: tsSpecAsgs rest
termination_by structural l => l

/-- Rendering of `LABEL` assignments: `f"{variable} = {label}"`. -/
def tsLabelAsgs : List (Node × String) → List String
  | [] => []
  | (v, label) :: rest => (nodeToString v ++ " = " ++ label) :: tsLabelAsgs rest
termination_by structural l => l

/-- Rendering of `LENGTH` assignments: variables then the length node. -/
def tsLenAsgs : List (List Node × Node) → List String
  | [] => []
  | (vs, len) :: rest => (joinSpace (tsList vs) ++ " " ++ nodeToString len) :: tsLenAsgs rest
termination_by structural l => l

end

mutual

/-- The recursive variable collection of
`LineageExtractor._extract_variables_from_node`, as the DFS-ordered list
of names it would `add` to the mutable set: explicit branches for
`Variable` (adds `str(node)`), `BinaryOperation` (left and right, never
the operator), `Condition` (the expression) and `Assignment` (the
right-hand side only); bare strings, lists and tuples have no `__dict__`
and contribute nothing; every other dataclass falls to the generic
branch, which recurses into node-valued attributes and iterates
list-valued attributes (items that are tuples contribute nothing, which
is why rename/format/informat/label/length pairs are never collected).
The list-attribute iteration of a Python list stored in a node field is
modelled at `DatasetOption.value`, the only field where the transformer
stores a bare list. -/
def varsOf : Node → List String
  | .var name => [name]
  | .binaryOperation l _ r => varsOf l ++ varsOf r
  | .condition e => varsOf e
  | .assignment _ e => varsOf e
  | .pyStr _ => []
  | .pyList _ => []
  | .pyPair _ _ => []
  | .datasetRef _ _ => []
  | .literal _ _ => []
  | .ifStatement c t => varsOf c ++ varsOf t
  | .datasetOption _ v =>
      (match v with
       | .pyList items => varsList items
       | .pyPair a b => varsOf a ++ varsOf b
       | v' => varsOf v')
  | .setStatement ds opts => varsOf ds ++ varsList opts
  | .mergeStatement dss opts => varsList dss ++ varsList opts
  | .byStatement vs => varsList vs
  | .whereClause c => varsOf c
  | .dataStep o s m b w stmts =>
      varsOpt o ++ varsOpt s ++ varsOpt m ++ varsOpt b ++ varsOpt w ++ varsList stmts
  | .procStep _ d opts stmts => varsOpt d ++ varsList opts ++ varsList stmts
  | .keepStatement vs => varsList vs
  | .dropStatement vs => varsList vs
  | .renameStatement _ => []
  | .inputStatement vs _ => varsList vs
  | .putStatement vs _ => varsList vs
  | .infileStatement _ opts => varsList opts
  | .fileStatement _ opts => varsList opts
  | .formatStatement _ => []
  | .informatStatement _ => []
  | .labelStatement _ => []
  | .doBlock stmts => varsList stmts
  | .doWhileLoop c stmts => varsOf c ++ varsList stmts
  | .doUntilLoop c stmts => varsOf c ++ varsList stmts
  | .iterativeDoLoop v s e b stmts =>
      varsOpt v ++ varsOpt s ++ varsOpt e ++ varsOpt b ++ varsList stmts
  | .outputStatement d => varsOpt d
  | .retainStatement vs inits => varsList vs ++ varsOptList inits
  | .lengthStatement _ => []
  | .stopStatement => []
  | .deleteStatement => []
  | .program stmts => varsList stmts
termination_by structural n => n

/-- Variable walk of an optional attribute (`None` contributes nothing). -/
def varsOpt : Option Node → List String
  | none => []
  | some n => varsOf n
termination_by structural o => o

/-- Variable walk of each item of a list-valued attribute. -/
def varsList : List Node → List String
  | [] => []
  | n :: ns => varsOf n ++ varsList ns
termination_by structural l => l

/-- Variable walk of `RETAIN.initial_values` items (`None` entries
contribute nothing). -/
def varsOptItems : List (Option Node) → List String
  | [] => []
  | none :: rest => varsOptItems rest
  | some n :: rest => varsOf n ++ varsOptItems rest
termination_by structural l => l

/-- Variable walk of the optional `RETAIN.initial_values` attribute. -/
def varsOptList : Option (List (Option Node)) → List String
  | none => []
  | some l => varsOptItems l
termination_by structural o => o

end

/-! ## Transformer rules (`sas_transformer.py`) -/

/-- Add a name to the accumulated used-column set
(`metadata["columns_used"].add(...)`): Python-set semantics over a
duplicate-free list. -/
def addUsed (s : String) (acc : List String) : List String :=
  if s ∈ acc then acc else acc ++ [s]

/-- The effect of `_extract_variables_from_node(node, used)`: every name
the DFS walk would add, folded into the set. -/
def extract_variables_from_node (n : Node) (acc : List String) : List String :=
  (varsOf n).foldl (fun a s => addUsed s a) acc

/-- Intermediate state of the `data_step` transformer loop
(`sas_transformer.py:32`): declared datasets, the four optional
clauses (later occurrences overwrite earlier ones) and body statements. -/
structure DataStepAcc where
  datasets : List Node
  set_stmt : Option Node
  merge_stmt : Option Node
  by_stmt : Option Node
  where_cl : Option Node
  statements : List Node

/-- One iteration of the `data_step` child loop.  The `isinstance`
dispatch: `DatasetRef` children are declared outputs; set/merge/by/where
statements fill their slot; everything else that is not `None` is
appended to the body (the explicit statement-class tuple and the final
`elif arg is not None` branch perform the same append). -/
def dataStepArg (acc : DataStepAcc) (arg : Option Node) : DataStepAcc :=
  match arg with
  | none => acc
  | some n =>
    match n with
    | .datasetRef _ _ => { acc with datasets := acc.datasets ++ [n] }
    | .setStatement _ _ => { acc with set_stmt := some n }
    | .mergeStatement _ _ => { acc with merge_stmt := some n }
    | .byStatement _ => { acc with by_stmt := some n }
    | .whereClause _ => { acc with where_cl := some n }
    | _ => { acc with statements := acc.statements ++ [n] }

/-- Transformer rule `data_step`: fold the children, then build the node
with `dataset = datasets[0] if datasets else None` — only the first
declared output dataset is recorded. -/
def data_step (args : List (Option Node)) : Node :=
  let acc := args.foldl dataStepArg ⟨[], none, none, none, none, []⟩
  .dataStep acc.datasets.head? acc.set_stmt acc.merge_stmt acc.by_stmt acc.where_cl
    acc.statements

/-- Intermediate state of the `proc_step` transformer loop. -/
structure ProcStepAcc where
  dataset : Option Node
  options : List Node
  statements : List Node

/-- A child of the `proc_step` rule: a transformed node, Python `None`,
or the Python list produced by the `proc_options` rule. -/
inductive ProcArg where
  | pnone
  | pnode (n : Node)
  | plist (ns : List Node)

/-- Option dispatch shared by the `proc_step` branches: an option
literally named `data` (case-insensitively) becomes the step's primary
dataset, everything else is retained. -/
def procOptArg (acc : ProcStepAcc) (n : Node) : ProcStepAcc :=
  match n with
  | .datasetOption nm v =>
      if asciiLower nm == "data" then { acc with dataset := some v }
      else { acc with options := acc.options ++ [n] }
  | _ => { acc with options := acc.options ++ [n] }

/-- One iteration of the `proc_step` child loop over `args[1:]`. -/
def procStepArg (acc : ProcStepAcc) (arg : ProcArg) : ProcStepAcc :=
  match arg with
  | .pnone => acc
  | .plist opts => opts.foldl procOptArg acc
  | .pnode (.datasetOption nm v) =>
      if asciiLower nm == "data" then { acc with dataset := some v }
      else { acc with options := acc.options ++ [.datasetOption nm v] }
  | .pnode n => { acc with statements := acc.statements ++ [n] }

/-- Python `str()` of a transformer child (the name position of
`proc_step` is `str(args[0])`). -/
def pyStrOf : ProcArg → String
  | .pnone => "None"
  | .pnode n => nodeToString n
  | .plist _ => "<pylist>"

/-- Transformer rule `proc_step`: `proc_name = str(args[0])`, then the
child loop; crashes (`IndexError`) on an empty child list. -/
def proc_step (args : List ProcArg) : Option Node :=
  match args with
  | [] => none
  | a0 :: rest =>
      let acc := rest.foldl procStepArg ⟨none, [], []⟩
      some (.procStep (pyStrOf a0) acc.dataset acc.options acc.statements)

/-- Transformer rule `program`: keep the non-`None` children in order. -/
def program_rule (stmts : List (Option Node)) : Node :=
  .program (stmts.filterMap id)

/-- Transformer rule `variable` (`sas_transformer.py:445`): one dotted
segment yields a `Variable`, two or more yield a `DatasetRef` from the
first two segments; an empty segment list would crash (`IndexError`).
The rule receives only the segments — no surrounding statement context. -/
def variable_rule : List String → Option Node
  | [p] => some (.var p)
  | p :: q :: _ => some (.datasetRef (some p) q)
  | [] => none

/-- The error raised by a transformer rule on an unrecognized child
shape: Python raises `ValueError(f"Unexpected condition args: {args}")`,
whose message names the rule and carries the received children — the
spec's `TransformError` kind. -/
structure TransformError where
  rule : String
  shape : List Node

/-- Transformer rule `condition` (`sas_transformer.py:435`): one child
wraps the expression, three children build the comparison
`BinaryOperation`, anything else raises. -/
def condition : List Node → Except TransformError Node
  | [e] => .ok (.condition e)
  | [a, op, b] => .ok (.condition (.binaryOperation a op b))
  | args => .error ⟨"condition", args⟩

/-- The statement classes recognized by `do_iterative_loop`'s `isinstance`
test (`sas_transformer.py:321`).  `OutputStatement`, `StopStatement`,
`DeleteStatement`, `RetainStatement` and `LengthStatement` are absent
from the tuple; `isinstance(None, ...)` is false. -/
def isRecognizedStmt : Option Node → Bool
  | some (.assignment _ _) => true
  | some (.ifStatement _ _) => true
  | some (.keepStatement _) => true
  | some (.dropStatement _) => true
  | some (.renameStatement _) => true
  | some (.inputStatement _ _) => true
  | some (.putStatement _ _) => true
  | some (.infileStatement _ _) => true
  | some (.fileStatement _ _) => true
  | some (.formatStatement _) => true
  | some (.informatStatement _) => true
  | some (.labelStatement _) => true
  | some (.doBlock _) => true
  | some (.doWhileLoop _ _) => true
  | some (.doUntilLoop _ _) => true
  | some (.iterativeDoLoop _ _ _ _ _) => true
  | _ => false

/-- Transformer rule `do_iterative_loop` (`sas_transformer.py:311`):
children 0–2 are the loop variable and bounds; a 4th child is the BY
(step) value exactly when it fails the `isinstance` statement test,
otherwise it is the first body statement; `None` children are filtered
out of the body.  Fewer than three children crash (`IndexError`). -/
def do_iterative_loop (args : List (Option Node)) : Option Node :=
  match args with
  | v :: s :: e :: rest =>
      some (match rest with
            | [] => .iterativeDoLoop v s e none []
            | x :: rest' =>
                if isRecognizedStmt x then
                  .iterativeDoLoop v s e none ((x :: rest').filterMap id)
                else
                  .iterativeDoLoop v s e x (rest'.filterMap id))
  | _ => none

/-! ## Lineage extractor (`lineage_extractor.py`) -/

/-- The per-step record built by `_extract_data_step_metadata`:
`columns_used` holds the final form (the set converted to a
lexicographically sorted list). -/
structure Metadata where
  inputs : List String
  outputs : List String
  columns_created : List String
  columns_used : List String
  filters : List String
  keys : List String
  operation : String
deriving DecidableEq

/-- Fold `_extract_variables_from_node(option.value, used)` over a
set/merge option list; a non-`DatasetOption` entry would crash
(`AttributeError` on `.value`) — unreachable from the transformer,
which filters the option lists by `isinstance`. -/
def optionsUsed : List Node → List String → Option (List String)
  | [], acc => some acc
  | .datasetOption _ v :: rest, acc => optionsUsed rest (extract_variables_from_node v acc)
  | _ :: _, _ => none

/-- The SET block of `_extract_data_step_metadata`: the input dataset
name and the used columns contributed by the option values.  The
transformer only ever stores a `SetStatement` (or `None`) here; other
constructors are mapped to failure (see the header note). -/
def setPart : Option Node → Option (List String × List String)
  | none => some ([], [])
  | some (.setStatement ds opts) => (optionsUsed opts []).map (fun u => ([nodeToString ds], u))
  | some _ => none

/-- The MERGE block: each dataset name in declaration order, plus used
columns from the option values. -/
def mergePart : Option Node → List String → Option (List String × List String)
  | none, u => some ([], u)
  | some (.mergeStatement dss opts), u =>
      (optionsUsed opts u).map (fun u' => (dss.map nodeToString, u'))
  | some _, _ => none

/-- The BY block: each variable's rendering is appended to `keys` and
added to the used-column set. -/
def byPart : Option Node → List String → Option (List String × List String)
  | none, u => some ([], u)
  | some (.byStatement vs), u =>
      some (vs.map nodeToString, (vs.map nodeToString).foldl (fun a s => addUsed s a) u)
  | some _, _ => none

/-- The WHERE block: the rendered condition becomes the filter entry and
its variables join the used-column set. -/
def wherePart : Option Node → List String → Option (List String × List String)
  | none, u => some ([], u)
  | some (.whereClause c), u => some ([nodeToString c], extract_variables_from_node c u)
  | some _, _ => none

/-- One iteration of the statement loop of
`_extract_data_step_metadata`: a top-level `Assignment` appends its
target to `columns_created` and its right-hand variables to the used
set; a top-level `IfStatement` contributes its condition's and
then-branch's variables, plus the then-branch target when the
then-branch is an `Assignment`; every other statement is ignored. -/
def stepStmt (st : List String × List String) (s : Node) : List String × List String :=
  match s with
  | .assignment v e => (st.1 ++ [nodeToString v], extract_variables_from_node e st.2)
  | .ifStatement c t =>
      let used := extract_variables_from_node t (extract_variables_from_node c st.2)
      (match t with
       | .assignment v _ => (st.1 ++ [nodeToString v], used)
       | _ => (st.1, used))
  | _ => st

/-- `LineageExtractor._extract_data_step_metadata`: outputs from the
(single) output dataset, inputs from SET then MERGE, keys from BY,
filters from WHERE, created/used columns from the statement loop; the
used-column set is finally emitted sorted. -/
def extract_data_step_metadata : Node → Option Metadata
  | .dataStep outd setOpt mergeOpt byOpt whereOpt stmts =>
      (setPart setOpt).bind fun su =>
      (mergePart mergeOpt su.2).bind fun mu =>
      (byPart byOpt mu.2).bind fun ku =>
      (wherePart whereOpt ku.2).bind fun fu =>
      some { inputs := su.1 ++ mu.1,
             outputs := (match outd with
                         | some d => [nodeToString d]
                         | none => []),
             columns_created := (stmts.foldl stepStmt ([], fu.2)).1,
             columns_used := sortStrs (stmts.foldl stepStmt ([], fu.2)).2,
             filters := fu.1,
             keys := ku.1,
             operation := "data_step" }
  | _ => none

/-- Python-dict assignment `lineage[key] = md`: overwrite in place keeps
the key's original position, a fresh key is appended. -/
def dictInsert (lin : List (String × Metadata)) (k : String) (v : Metadata) :
    List (String × Metadata) :=
  if lin.any (fun p => p.1 == k) then
    lin.map (fun p => if p.1 == k then (k, v) else p)
  else lin ++ [(k, v)]

/-- Python-dict lookup. -/
def dictLookup (k : String) (lin : List (String × Metadata)) : Option Metadata :=
  (lin.find? (fun p => p.1 == k)).map Prod.snd

/-- The statement loop of `extract_lineage`: only `DataStep` statements
contribute; a record is filed under `metadata['outputs'][0]` when the
outputs list is non-empty. -/
def lineageFold : List Node → List (String × Metadata) → Option (List (String × Metadata))
  | [], lin => some lin
  | .dataStep o s m b w stmts :: rest, lin =>
      (match extract_data_step_metadata (.dataStep o s m b w stmts) with
       | none => none
       | some md =>
           lineageFold rest
             (match md.outputs with
              | k :: _ => dictInsert lin k md
              | [] => lin))
  | _ :: rest, lin => lineageFold rest lin

/-- `LineageExtractor.extract_lineage`: walk `program.statements` in
order; a non-`Program` argument would crash on `.statements`
(`Program` is what `parse` returns). -/
def extract_lineage : Node → Option (List (String × Metadata))
  | .program stmts => lineageFold stmts []
  | _ => none

/-! ## Spec-side definitions used for refinement comparisons -/

/-- Claim C7's description of `columns_created`, written from the spec's
words: the target of every top-level `Assignment`, plus the target of
any `Assignment` standing as the `then_statement` of a top-level
`IfStatement`, in encounter order, not deduplicated. -/
def columns_created_spec : List Node → List String
  | [] => []
  | .assignment v _ :: rest => nodeToString v :: columns_created_spec rest
  | .ifStatement _ t :: rest =>
      (match t with
       | .assignment v _ => [nodeToString v]
       | _ => []) ++ columns_created_spec rest
  | _ :: rest => columns_created_spec rest

/-- Projection: the single `output_dataset` field a transformed
`DataStep` records. -/
def primary_output : Node → Option Node
  | .dataStep o _ _ _ _ _ => o
  | _ => none

/-- The five statement kinds absent from `do_iterative_loop`'s
recognized-statement tuple (claim C9). -/
def isFiveKind : Node → Bool
  | .outputStatement _ => true
  | .stopStatement => true
  | .deleteStatement => true
  | .retainStatement _ _ => true
  | .lengthStatement _ => true
  | _ => false


/-! ## Order facts about the string comparison and the sort -/

theorem char_toNat_inj {a b : Char} (h : a.toNat = b.toNat) : a = b :=
  Char.eq_of_val_eq (UInt32.ext h)

theorem charListLtB_total : ∀ as bs : List Char,
    charListLtB as bs = false → charListLtB bs as = false → as = bs := by
  intro as
  induction as with
  | nil =>
      intro bs h1 h2
      cases bs with
      | nil => rfl
      | cons b bs => simp [charListLtB] at h1
  | cons a as ih =>
      intro bs h1 h2
      cases bs with
      | nil => simp [charListLtB] at h2
      | cons b bs =>
          simp only [charListLtB, Bool.or_eq_false_iff, Bool.and_eq_false_iff,
            decide_eq_false_iff_not, beq_eq_false_iff_ne, ne_eq] at h1 h2
          obtain ⟨hab, hr1⟩ := h1
          obtain ⟨hba, hr2⟩ := h2
          have heq : a.toNat = b.toNat := by omega
          have : a = b := char_toNat_inj heq
          subst this
          rcases hr1 with h | h
          · exact absurd heq h
          · rcases hr2 with h' | h'
            · exact absurd rfl h'
            · rw [ih bs h h']

theorem charListLtB_trans : ∀ as bs cs : List Char,
    charListLtB as bs = true → charListLtB bs cs = true → charListLtB as cs = true := by
  intro as
  induction as with
  | nil =>
      intro bs cs h1 h2
      cases bs with
      | nil => simp [charListLtB] at h1
      | cons b bs =>
          cases cs with
          | nil => simp [charListLtB] at h2
          | cons c cs => simp [charListLtB]
  | cons a as ih =>
      intro bs cs h1 h2
      cases bs with
      | nil => simp [charListLtB] at h1
      | cons b bs =>
          cases cs with
          | nil => simp [charListLtB] at h2
          | cons c cs =>
              simp only [charListLtB, Bool.or_eq_true, Bool.and_eq_true,
                decide_eq_true_eq, beq_iff_eq] at h1 h2 ⊢
              rcases h1 with h1 | ⟨hab, hr1⟩
              · rcases h2 with h2 | ⟨hbc, hr2⟩
                · exact Or.inl (by omega)
                · exact Or.inl (by omega)
              · rcases h2 with h2 | ⟨hbc, hr2⟩
                · exact Or.inl (by omega)
                · exact Or.inr ⟨by omega, ih bs cs hr1 hr2⟩

theorem strLeB_total {a b : String} (h : strLeB a b = false) : strLeB b a = true := by
  simp only [strLeB, strLtB, Bool.or_eq_false_iff, beq_eq_false_iff_ne, ne_eq] at h
  obtain ⟨hlt, hne⟩ := h
  simp only [strLeB, strLtB, Bool.or_eq_true, beq_iff_eq]
  by_cases hba : charListLtB b.data a.data = true
  · exact Or.inl hba
  · exfalso
    apply hne
    have hdata := charListLtB_total a.data b.data hlt (by simpa using hba)
    cases a; cases b
    exact congrArg String.mk hdata

theorem strLeB_trans {a b c : String} (h1 : strLeB a b = true) (h2 : strLeB b c = true) :
    strLeB a c = true := by
  simp only [strLeB, strLtB, Bool.or_eq_true, beq_iff_eq] at h1 h2 ⊢
  rcases h1 with h1 | h1
  · rcases h2 with h2 | h2
    · exact Or.inl (charListLtB_trans _ _ _ h1 h2)
    · subst h2; exact Or.inl h1
  · subst h1
    exact h2

theorem perm_insertSorted (s : String) : ∀ l : List String,
    List.Perm (insertSorted s l) (s :: l) := by
  intro l
  induction l with
  | nil => simp [insertSorted]
  | cons t ts ih =>
      simp only [insertSorted]
      by_cases h : strLeB s t = true
      · simp [h]
      · simp only [Bool.not_eq_true] at h
        simp only [h, Bool.false_eq_true, if_false]
        exact (ih.cons t).trans (List.Perm.swap s t ts)

theorem perm_sortStrs : ∀ l : List String, List.Perm (sortStrs l) l := by
  intro l
  induction l with
  | nil => simp [sortStrs]
  | cons s rest ih =>
      simp only [sortStrs]
      exact (perm_insertSorted s (sortStrs rest)).trans (ih.cons s)

theorem nodup_sortStrs {l : List String} (h : l.Nodup) : (sortStrs l).Nodup :=
  (perm_sortStrs l).nodup_iff.mpr h

theorem mem_sortStrs {a : String} {l : List String} : a ∈ sortStrs l ↔ a ∈ l :=
  (perm_sortStrs l).mem_iff

theorem sorted_insertSorted (s : String) : ∀ l : List String,
    l.Pairwise (fun a b => strLeB a b = true) →
    (insertSorted s l).Pairwise (fun a b => strLeB a b = true) := by
  intro l
  induction l with
  | nil => intro _; simp [insertSorted]
  | cons t ts ih =>
      intro h
      rw [List.pairwise_cons] at h
      obtain ⟨ht, hts⟩ := h
      simp only [insertSorted]
      by_cases hst : strLeB s t = true
      · rw [if_pos hst, List.pairwise_cons]
        refine ⟨?_, List.pairwise_cons.mpr ⟨ht, hts⟩⟩
        intro u hu
        rcases List.mem_cons.mp hu with rfl | hu
        · exact hst
        · exact strLeB_trans hst (ht u hu)
      · rw [if_neg hst, List.pairwise_cons]
        refine ⟨?_, ih hts⟩
        intro u hu
        rcases List.mem_cons.mp ((perm_insertSorted s ts).mem_iff.mp hu) with rfl | hu
        · exact strLeB_total (Bool.not_eq_true _ ▸ eq_false_of_ne_true hst)
        · exact ht u hu

theorem sorted_sortStrs : ∀ l : List String,
    (sortStrs l).Pairwise (fun a b => strLeB a b = true) := by
  intro l
  induction l with
  | nil => simp [sortStrs]
  | cons s rest ih =>
      simpa [sortStrs] using sorted_insertSorted s (sortStrs rest) ih

/-! ## Facts about the used-column set accumulation -/

theorem addUsed_nodup {s : String} {acc : List String} (h : acc.Nodup) :
    (addUsed s acc).Nodup := by
  unfold addUsed
  split
  · exact h
  · exact List.Nodup.append h (List.nodup_singleton s)
      (by simpa [List.disjoint_singleton] using by assumption)

theorem subset_addUsed (s : String) (acc : List String) : acc ⊆ addUsed s acc := by
  unfold addUsed
  split
  · exact fun _ h => h
  · exact List.subset_append_left _ _

theorem mem_addUsed_self (s : String) (acc : List String) : s ∈ addUsed s acc := by
  unfold addUsed
  split
  · assumption
  · simp

theorem foldl_addUsed_nodup : ∀ (l : List String) (acc : List String), acc.Nodup →
    (l.foldl (fun a s => addUsed s a) acc).Nodup := by
  intro l
  induction l with
  | nil => intro acc h; exact h
  | cons s rest ih => intro acc h; exact ih _ (addUsed_nodup h)

theorem subset_foldl_addUsed : ∀ (l : List String) (acc : List String),
    acc ⊆ l.foldl (fun a s => addUsed s a) acc := by
  intro l
  induction l with
  | nil => intro acc; exact fun _ h => h
  | cons s rest ih =>
      intro acc
      exact (subset_addUsed s acc).trans (ih (addUsed s acc))

theorem mem_foldl_addUsed : ∀ (l : List String) (acc : List String) (s : String), s ∈ l →
    s ∈ l.foldl (fun a s => addUsed s a) acc := by
  intro l
  induction l with
  | nil => intro acc s h; cases h
  | cons t rest ih =>
      intro acc s h
      rcases List.mem_cons.mp h with rfl | h
      · exact subset_foldl_addUsed rest _ (mem_addUsed_self s acc)
      · exact ih _ s h

theorem evfn_nodup {n : Node} {acc : List String} (h : acc.Nodup) :
    (extract_variables_from_node n acc).Nodup :=
  foldl_addUsed_nodup _ _ h

theorem subset_evfn (n : Node) (acc : List String) :
    acc ⊆ extract_variables_from_node n acc :=
  subset_foldl_addUsed _ _

theorem optionsUsed_nodup : ∀ (opts : List Node) (acc u : List String),
    optionsUsed opts acc = some u → acc.Nodup → u.Nodup := by
  intro opts
  induction opts with
  | nil => intro acc u h hn; cases h; exact hn
  | cons o rest ih =>
      intro acc u h hn
      match o, h with
      | .datasetOption nm v, h => exact ih _ u h (evfn_nodup hn)

theorem optionsUsed_subset : ∀ (opts : List Node) (acc u : List String),
    optionsUsed opts acc = some u → acc ⊆ u := by
  intro opts
  induction opts with
  | nil => intro acc u h; cases h; exact fun _ h => h
  | cons o rest ih =>
      intro acc u h
      match o, h with
      | .datasetOption nm v, h => exact (subset_evfn v acc).trans (ih _ u h)

theorem stepStmt_used_nodup {st : List String × List String} {s : Node}
    (h : st.2.Nodup) : (stepStmt st s).2.Nodup := by
  unfold stepStmt
  rcases st with ⟨c, u⟩
  cases s <;> simp <;> try exact h
  · exact evfn_nodup h
  · rename_i cnd t
    cases t <;> simp <;> exact evfn_nodup (evfn_nodup h)

theorem stepStmt_used_subset (st : List String × List String) (s : Node) :
    st.2 ⊆ (stepStmt st s).2 := by
  unfold stepStmt
  rcases st with ⟨c, u⟩
  cases s <;> simp <;> try exact fun _ h => h
  · exact subset_evfn _ _
  · rename_i cnd t
    cases t <;> simp <;>
      exact (subset_evfn cnd u).trans (subset_evfn _ _)

theorem foldl_stepStmt_used_nodup : ∀ (stmts : List Node) (st : List String × List String),
    st.2.Nodup → (stmts.foldl stepStmt st).2.Nodup := by
  intro stmts
  induction stmts with
  | nil => intro st h; exact h
  | cons s rest ih => intro st h; exact ih _ (stepStmt_used_nodup h)

theorem foldl_stepStmt_used_subset : ∀ (stmts : List Node) (st : List String × List String),
    st.2 ⊆ (stmts.foldl stepStmt st).2 := by
  intro stmts
  induction stmts with
  | nil => intro st; exact fun _ h => h
  | cons s rest ih =>
      intro st
      exact (stepStmt_used_subset st s).trans (ih _)

theorem foldl_stepStmt_created : ∀ (stmts : List Node) (c u : List String),
    (stmts.foldl stepStmt (c, u)).1 = c ++ columns_created_spec stmts := by
  intro stmts
  induction stmts with
  | nil => intro c u; simp [columns_created_spec]
  | cons s rest ih =>
      intro c u
      cases s <;> simp only [List.foldl_cons, stepStmt, columns_created_spec] <;>
        try simp [ih]
      · rename_i cnd t
        cases t <;> simp [ih, columns_created_spec]

/-! ## Facts about the `data_step` child fold (claim C1) -/

/-- Two fold states that agree on everything the final node reads:
all clause slots, the body, and the head of the declared-dataset list. -/
def accRel (a1 a2 : DataStepAcc) : Prop :=
  a1.datasets.head? = a2.datasets.head? ∧ a1.set_stmt = a2.set_stmt ∧
    a1.merge_stmt = a2.merge_stmt ∧ a1.by_stmt = a2.by_stmt ∧
    a1.where_cl = a2.where_cl ∧ a1.statements = a2.statements

theorem head?_append_single (l : List Node) (x : Node) :
    (l ++ [x]).head? = some (l.head?.getD x) := by
  cases l <;> rfl

theorem accRel_step {a1 a2 : DataStepAcc} (h : accRel a1 a2) (arg : Option Node) :
    accRel (dataStepArg a1 arg) (dataStepArg a2 arg) := by
  obtain ⟨hd, hs, hm, hb, hw, hst⟩ := h
  cases arg with
  | none => exact ⟨hd, hs, hm, hb, hw, hst⟩
  | some n =>
      cases n <;>
        simp [dataStepArg, accRel, hd, hs, hm, hb, hw, hst, head?_append_single]

theorem accRel_foldl : ∀ (args : List (Option Node)) {a1 a2 : DataStepAcc},
    accRel a1 a2 → accRel (args.foldl dataStepArg a1) (args.foldl dataStepArg a2) := by
  intro args
  induction args with
  | nil => intro a1 a2 h; exact h
  | cons arg rest ih =>
      intro a1 a2 h
      exact ih (accRel_step h arg)

theorem data_step_eq_of_accRel {a1 a2 : DataStepAcc} (args : List (Option Node))
    (h : accRel a1 a2) :
    (Node.dataStep (args.foldl dataStepArg a1).datasets.head?
      (args.foldl dataStepArg a1).set_stmt (args.foldl dataStepArg a1).merge_stmt
      (args.foldl dataStepArg a1).by_stmt (args.foldl dataStepArg a1).where_cl
      (args.foldl dataStepArg a1).statements) =
    (Node.dataStep (args.foldl dataStepArg a2).datasets.head?
      (args.foldl dataStepArg a2).set_stmt (args.foldl dataStepArg a2).merge_stmt
      (args.foldl dataStepArg a2).by_stmt (args.foldl dataStepArg a2).where_cl
      (args.foldl dataStepArg a2).statements) := by
  obtain ⟨hd, hs, hm, hb, hw, hst⟩ := accRel_foldl args h
  rw [hd, hs, hm, hb, hw, hst]

theorem dataStepArg_head_mono {acc : DataStepAcc} {d : Node}
    (h : acc.datasets.head? = some d) (arg : Option Node) :
    (dataStepArg acc arg).datasets.head? = some d := by
  cases arg with
  | none => exact h
  | some n =>
      cases n <;> simp [dataStepArg, head?_append_single, h]

theorem foldl_dataStepArg_head : ∀ (args : List (Option Node)) {acc : DataStepAcc}
    {d : Node}, acc.datasets.head? = some d →
    (args.foldl dataStepArg acc).datasets.head? = some d := by
  intro args
  induction args with
  | nil => intro acc d h; exact h
  | cons arg rest ih =>
      intro acc d h
      exact ih (dataStepArg_head_mono h arg)

/-- C1 (counterexample): transforming `DATA a b;` does not record two
output-dataset entries — the node is identical to the one produced by
`DATA a;` (the second declared name leaves no trace), and the
extractor-visible outputs list of the transformed step is `["a"]`, of
length one, not two. -/
theorem c1_counterexample :
    data_step [some (.datasetRef none "a"), some (.datasetRef none "b")] =
      data_step [some (.datasetRef none "a")] ∧
    (extract_data_step_metadata
      (data_step [some (.datasetRef none "a"), some (.datasetRef none "b")])).map
        Metadata.outputs = some ["a"] ∧
    (extract_data_step_metadata
      (data_step [some (.datasetRef none "a"), some (.datasetRef none "b")])).map
        (fun m => m.outputs.length) ≠ some 2 := by
  refine ⟨rfl, rfl, ?_⟩
  decide

/-- C1 (amended): a DATA step declaring several output datasets records
only the first (primary) one, in the single `output_dataset` field of
the transformed `DataStep`: dropping the second declared dataset from
the children changes nothing, and the recorded primary output is the
first declared `DatasetRef`. -/
theorem c1_single_primary_output (l1 : Option String) (n1 : String) (l2 : Option String)
    (n2 : String) (rest : List (Option Node)) :
    data_step (some (.datasetRef l1 n1) :: some (.datasetRef l2 n2) :: rest) =
      data_step (some (.datasetRef l1 n1) :: rest) ∧
    primary_output (data_step (some (.datasetRef l1 n1) :: rest)) =
      some (.datasetRef l1 n1) := by
  constructor
  · show Node.dataStep _ _ _ _ _ _ = Node.dataStep _ _ _ _ _ _
    simp only [data_step, List.foldl_cons]
    exact data_step_eq_of_accRel rest (by simp [dataStepArg, accRel])
  · simp only [data_step, primary_output, List.foldl_cons]
    exact foldl_dataStepArg_head rest (by simp [dataStepArg])

/-- C1 (witness): the amended statement at `DATA a b;`. -/
theorem c1_witness :
    data_step [some (.datasetRef none "a"), some (.datasetRef none "b")] =
      data_step [some (.datasetRef none "a")] ∧
    primary_output (data_step [some (.datasetRef none "a")]) =
      some (.datasetRef none "a") :=
  c1_single_primary_output none "a" none "b" []

/-! ## Claim C3: the lineage example -/

/-- The `sales` step of the spec's lineage example, as the transformer
builds it from `DATA sales; SET raw.transactions; WHERE region = 'APAC';
RUN;`. -/
def c3_sales_step : Node :=
  .dataStep (some (.datasetRef none "sales"))
    (some (.setStatement (.datasetRef (some "raw") "transactions") []))
    none none
    (some (.whereClause (.condition (.binaryOperation (.var "region") (.pyStr "=")
      (.literal (.strVal "APAC") "string"))))) []

/-- The `customer_sales` step: `DATA customer_sales; MERGE customers
accounts; BY customer_id; WHERE status = 'ACTIVE'; RUN;`. -/
def c3_customer_step : Node :=
  .dataStep (some (.datasetRef none "customer_sales"))
    none
    (some (.mergeStatement [.datasetRef none "customers", .datasetRef none "accounts"] []))
    (some (.byStatement [.var "customer_id"]))
    (some (.whereClause (.condition (.binaryOperation (.var "status") (.pyStr "=")
      (.literal (.strVal "ACTIVE") "string"))))) []

/-- The two-step program of the example. -/
def c3_program : Node := .program [c3_sales_step, c3_customer_step]

/-- C3: `extract_lineage` on the two-step example yields exactly the
keys `sales` and `customer_sales`; `sales.inputs` is
`["raw.transactions"]`; `customer_sales.inputs` is
`["customers", "accounts"]` in declaration order; and
`customer_sales.keys` is `["customer_id"]`. -/
theorem c3_lineage_example :
    (extract_lineage c3_program).map (fun l => l.map Prod.fst) =
      some ["sales", "customer_sales"] ∧
    ((extract_lineage c3_program).bind (dictLookup "sales")).map Metadata.inputs =
      some ["raw.transactions"] ∧
    ((extract_lineage c3_program).bind (dictLookup "customer_sales")).map Metadata.inputs =
      some ["customers", "accounts"] ∧
    ((extract_lineage c3_program).bind (dictLookup "customer_sales")).map Metadata.keys =
      some ["customer_id"] :=
  ⟨rfl, rfl, rfl, rfl⟩

/-! ## Claim C4: arity-based reference disambiguation -/

/-- C4: the `variable` production's transform depends only on the dotted
segments it receives (the rule has no other input): one segment yields
`Variable(segment)`, two yield `DatasetRef(first, second)`, in every
grammatical position. -/
theorem c4_variable_arity (p q : String) :
    variable_rule [p] = some (.var p) ∧
    variable_rule [p, q] = some (.datasetRef (some p) q) :=
  ⟨rfl, rfl⟩

/-- C4 (witness): the spec's own instances `data1` and `work.data1`. -/
theorem c4_witness :
    variable_rule ["data1"] = some (.var "data1") ∧
    variable_rule ["work", "data1"] = some (.datasetRef (some "work") "data1") :=
  ⟨(c4_variable_arity "data1" "x").1, (c4_variable_arity "work" "data1").2⟩

/-! ## Claim C5: iterative-DO step disambiguation -/

/-- C5: transforming `DO i = 1 TO 20 BY 2; sum = sum + i; END;` yields a
loop whose step (`by_value`) field is `Literal(2)` and whose body is the
single assignment; in general the 4th positional child becomes the step
value exactly when it is not one of the recognized statement variants,
and becomes the first body statement otherwise. -/
theorem c5_iterative_do_step :
    do_iterative_loop [some (.var "i"), some (.literal (.intVal 1) "number"),
      some (.literal (.intVal 20) "number"), some (.literal (.intVal 2) "number"),
      some (.assignment (.var "sum") (.binaryOperation (.var "sum") (.pyStr "+") (.var "i")))] =
      some (.iterativeDoLoop (some (.var "i")) (some (.literal (.intVal 1) "number"))
        (some (.literal (.intVal 20) "number")) (some (.literal (.intVal 2) "number"))
        [.assignment (.var "sum") (.binaryOperation (.var "sum") (.pyStr "+") (.var "i"))]) ∧
    ∀ (v s e x : Option Node) (rest : List (Option Node)),
      do_iterative_loop (v :: s :: e :: x :: rest) =
        some (if isRecognizedStmt x then
                .iterativeDoLoop v s e none ((x :: rest).filterMap id)
              else
                .iterativeDoLoop v s e x (rest.filterMap id)) :=
  ⟨rfl, fun v s e x rest => rfl⟩

/-- C5 (witness): the general disambiguation applied to a loop whose 4th
child is an assignment — it becomes the first body statement, and the
step field stays empty. -/
theorem c5_witness :
    do_iterative_loop [some (.var "j"), some (.literal (.intVal 1) "number"),
      some (.literal (.intVal 3) "number"),
      some (.assignment (.var "t") (.literal (.intVal 0) "number"))] =
      some (.iterativeDoLoop (some (.var "j")) (some (.literal (.intVal 1) "number"))
        (some (.literal (.intVal 3) "number")) none
        [.assignment (.var "t") (.literal (.intVal 0) "number")]) :=
  c5_iterative_do_step.2 (some (.var "j")) (some (.literal (.intVal 1) "number"))
    (some (.literal (.intVal 3) "number"))
    (some (.assignment (.var "t") (.literal (.intVal 0) "number"))) []

/-! ## Claim C8: fatal shape in the `condition` rule -/

/-- C8: a `condition` production with exactly two children fails with
the transform error naming the rule (`condition`) and the received
shape (the two children); there is no fallback `ok` result, so the
surrounding transform (an `Except` computation) propagates the failure
and returns no partial AST. -/
theorem c8_condition_two_children (a b : Node) :
    condition [a, b] = .error ⟨"condition", [a, b]⟩ ∧
    ∀ r : Node, condition [a, b] ≠ .ok r :=
  ⟨rfl, fun r h => Except.noConfusion h⟩

/-- C8 (witness): the fatal shape at two concrete children. -/
theorem c8_witness :
    condition [.var "x", .var "y"] = .error ⟨"condition", [.var "x", .var "y"]⟩ :=
  (c8_condition_two_children (.var "x") (.var "y")).1

/-! ## Claim C9: the five unrecognized statement kinds -/

theorem five_not_recognized (n : Node) (h : isFiveKind n = true) :
    isRecognizedStmt (some n) = false := by
  cases n <;> first
    | rfl
    | simp [isFiveKind] at h

/-- C9: when the 4th child of an iterative DO (one with no BY clause in
the source, so the 4th child is its first body statement) is an
`OutputStatement`, `StopStatement`, `DeleteStatement`, `RetainStatement`
or `LengthStatement`, the transformer stores it as the loop's step
(`by_value`) expression and drops it from the body list, because the
recognized-statement test does not include those five variants. -/
theorem c9_step_value_misclassification (v s e : Option Node) (n : Node)
    (rest : List (Option Node)) (h : isFiveKind n = true) :
    do_iterative_loop (v :: s :: e :: some n :: rest) =
      some (.iterativeDoLoop v s e (some n) (rest.filterMap id)) := by
  simp [do_iterative_loop, five_not_recognized n h]

/-- C9 (witness): `DO i = 1 TO 10; OUTPUT; END;` — the `OUTPUT`
statement ends up as the loop's step value with an empty body. -/
theorem c9_witness :
    isFiveKind (.outputStatement none) = true ∧
    do_iterative_loop [some (.var "i"), some (.literal (.intVal 1) "number"),
      some (.literal (.intVal 10) "number"), some (.outputStatement none)] =
      some (.iterativeDoLoop (some (.var "i")) (some (.literal (.intVal 1) "number"))
        (some (.literal (.intVal 10) "number")) (some (.outputStatement none)) []) :=
  ⟨rfl, c9_step_value_misclassification (some (.var "i"))
    (some (.literal (.intVal 1) "number")) (some (.literal (.intVal 10) "number"))
    (.outputStatement none) [] rfl⟩

/-! ## Claim C2: the stringify/parse round trip -/

/-- The AST of `proc sort; run;` (the transformer stores the identifier
token's text unchanged: `proc_name = str(args[0])`). -/
def c2_lower : Node := .program [.procStep "sort" none [] []]

/-- The AST of `PROC SORT; RUN;`. -/
def c2_upper : Node := .program [.procStep "SORT" none [] []]

/-- C2: the canonical stringifier is not injective on
transformer-constructible programs — `ProcStep.__str__` uppercases the
stored procedure name, so the two distinct programs above (both in the
range of the transformer rules `proc_step`/`program`) render to the
same text; consequently no parse function whatsoever can satisfy
`parse(stringify(p)) = p` on both, and the round-trip law fails. -/
theorem c2_stringify_not_injective :
    proc_step [.pnode (.pyStr "sort")] = some (.procStep "sort" none [] []) ∧
    proc_step [.pnode (.pyStr "SORT")] = some (.procStep "SORT" none [] []) ∧
    program_rule [some (.procStep "sort" none [] [])] = c2_lower ∧
    program_rule [some (.procStep "SORT" none [] [])] = c2_upper ∧
    nodeToString c2_lower = nodeToString c2_upper ∧
    c2_lower ≠ c2_upper ∧
    ∀ parse : String → Option Node,
      parse (nodeToString c2_lower) = some c2_lower →
      parse (nodeToString c2_upper) ≠ some c2_upper := by
  refine ⟨rfl, rfl, rfl, rfl, rfl, ?_, ?_⟩
  · simp [c2_lower, c2_upper]
  · intro parse h hc
    have hts : nodeToString c2_upper = nodeToString c2_lower := rfl
    rw [hts, h] at hc
    have : c2_lower = c2_upper := Option.some.inj hc
    simp [c2_lower, c2_upper] at this

/-- C2 (witness): a parse function that inverts the rendering of the
lowercase program necessarily fails on the uppercase one. -/
theorem c2_witness :
    (fun _ : String => some c2_lower) (nodeToString c2_lower) = some c2_lower ∧
    (fun _ : String => some c2_lower) (nodeToString c2_upper) ≠ some c2_upper :=
  ⟨rfl, c2_stringify_not_injective.2.2.2.2.2.2 (fun _ => some c2_lower) rfl⟩

/-! ## Claim C6: last-write-wins keying -/

/-- C6: when two DATA steps produce records filed under the same primary
(first) output name, the final map holds a single entry under that name,
and it is the later step's record. -/
theorem c6_last_write_wins
    (o1 s1 m1 b1 w1 : Option Node) (st1 : List Node)
    (o2 s2 m2 b2 w2 : Option Node) (st2 : List Node)
    (md1 md2 : Metadata) (n : String) (t1 t2 : List String)
    (h1 : extract_data_step_metadata (.dataStep o1 s1 m1 b1 w1 st1) = some md1)
    (h2 : extract_data_step_metadata (.dataStep o2 s2 m2 b2 w2 st2) = some md2)
    (ho1 : md1.outputs = n :: t1) (ho2 : md2.outputs = n :: t2) :
    extract_lineage (.program [.dataStep o1 s1 m1 b1 w1 st1,
      .dataStep o2 s2 m2 b2 w2 st2]) = some [(n, md2)] ∧
    (extract_lineage (.program [.dataStep o1 s1 m1 b1 w1 st1,
      .dataStep o2 s2 m2 b2 w2 st2])).bind (dictLookup n) = some md2 := by
  have hmap : extract_lineage (.program [.dataStep o1 s1 m1 b1 w1 st1,
      .dataStep o2 s2 m2 b2 w2 st2]) = some [(n, md2)] := by
    simp only [extract_lineage, lineageFold, h1, h2, ho1, ho2]
    simp [dictInsert]
  exact ⟨hmap, by rw [hmap]; simp [dictLookup]⟩

/-! ## Inversion facts for the metadata record (claims C7, C10) -/

theorem setPart_nodup {sOpt : Option Node} {su : List String × List String}
    (h : setPart sOpt = some su) : su.2.Nodup := by
  cases sOpt with
  | none => cases h; exact List.nodup_nil
  | some node =>
      cases node <;> simp [setPart] at h
      rename_i ds opts
      obtain ⟨u, hu, hsu⟩ := h
      have := optionsUsed_nodup opts [] u hu List.nodup_nil
      simp [← hsu, this]

theorem mergePart_inv {mOpt : Option Node} {u : List String}
    {mu : List String × List String} (h : mergePart mOpt u = some mu) :
    (u.Nodup → mu.2.Nodup) ∧ u ⊆ mu.2 := by
  cases mOpt with
  | none => cases h; exact ⟨id, fun _ h => h⟩
  | some node =>
      cases node <;> simp [mergePart] at h
      rename_i dss opts
      obtain ⟨u', hu', hmu⟩ := h
      refine ⟨fun hn => ?_, ?_⟩
      · have := optionsUsed_nodup opts u u' hu' hn
        simp [← hmu, this]
      · have := optionsUsed_subset opts u u' hu'
        simp [← hmu]
        exact this

theorem byPart_inv {bOpt : Option Node} {u : List String}
    {ku : List String × List String} (h : byPart bOpt u = some ku) :
    (u.Nodup → ku.2.Nodup) ∧ u ⊆ ku.2 := by
  cases bOpt with
  | none => cases h; exact ⟨id, fun _ h => h⟩
  | some node =>
      cases node <;> simp [byPart] at h
      rename_i vs
      subst h
      constructor
      · intro hn
        exact foldl_addUsed_nodup _ _ hn
      · exact subset_foldl_addUsed _ _

theorem wherePart_inv {wOpt : Option Node} {u : List String}
    {fu : List String × List String} (h : wherePart wOpt u = some fu) :
    (u.Nodup → fu.2.Nodup) ∧ u ⊆ fu.2 := by
  cases wOpt with
  | none => cases h; exact ⟨id, fun _ h => h⟩
  | some node =>
      cases node <;> simp [wherePart] at h
      rename_i c
      subst h
      constructor
      · intro hn
        exact evfn_nodup hn
      · exact subset_evfn _ _

/-! ## Claim C7: created vs. used columns -/

/-- C7: in every lineage record, `columns_created` is exactly the
target of every top-level assignment plus the target of any assignment
standing as the then-branch of a top-level IF, in encounter order and
not deduplicated, while `columns_used` is duplicate-free and sorted
lexicographically (by code point, Python's string order). -/
theorem c7_columns_created_used
    (o s m b w : Option Node) (stmts : List Node) (md : Metadata)
    (h : extract_data_step_metadata (.dataStep o s m b w stmts) = some md) :
    md.columns_created = columns_created_spec stmts ∧
    md.columns_used.Nodup ∧
    md.columns_used.Pairwise (fun a b => strLeB a b = true) := by
  simp only [extract_data_step_metadata, Option.bind_eq_some, Option.some.injEq] at h
  obtain ⟨su, hsu, mu, hmu, ku, hku, fu, hfu, hmd⟩ := h
  subst hmd
  refine ⟨?_, ?_, ?_⟩
  · simpa using foldl_stepStmt_created stmts [] fu.2
  · exact nodup_sortStrs (foldl_stepStmt_used_nodup stmts ([], fu.2)
      ((wherePart_inv hfu).1 ((byPart_inv hku).1 ((mergePart_inv hmu).1
        (setPart_nodup hsu)))))
  · exact sorted_sortStrs _

/-- Step of the C7 witness: `DATA out; x = y; x = 2; RUN;` — the same
variable assigned twice. -/
def c7_step_stmts : List Node :=
  [.assignment (.var "x") (.var "y"), .assignment (.var "x") (.literal (.intVal 2) "number")]

/-- The record the extractor computes for the C7 witness step. -/
def c7_md : Metadata :=
  { inputs := [], outputs := ["out"], columns_created := ["x", "x"],
    columns_used := ["y"], filters := [], keys := [], operation := "data_step" }

/-- C7 (witness): on the duplicate-assignment step the record's
`columns_created` is `["x", "x"]` — the duplicate preserved — while
`columns_used` is the deduplicated sorted `["y"]`. -/
theorem c7_witness :
    c7_md.columns_created = columns_created_spec c7_step_stmts ∧
    c7_md.columns_used.Nodup ∧
    c7_md.columns_used.Pairwise (fun a b => strLeB a b = true) ∧
    c7_md.columns_created = ["x", "x"] := by
  have := c7_columns_created_used (some (.datasetRef none "out")) none none none none
    c7_step_stmts c7_md rfl
  exact ⟨this.1, this.2.1, this.2.2, rfl⟩

/-! ## Claim C10: BY variables feed keys and used columns -/

/-- C10: a DATA step with a BY statement records every BY variable's
name in `keys` (in declaration order) and in the sorted `columns_used`
list, whether or not the variable occurs anywhere else in the step. -/
theorem c10_by_variables (o s m w : Option Node) (vs stmts : List Node) (md : Metadata)
    (h : extract_data_step_metadata
      (.dataStep o s m (some (.byStatement vs)) w stmts) = some md) :
    md.keys = vs.map nodeToString ∧
    ∀ v ∈ vs, nodeToString v ∈ md.columns_used := by
  simp only [extract_data_step_metadata, Option.bind_eq_some, Option.some.injEq] at h
  obtain ⟨su, hsu, mu, hmu, ku, hku, fu, hfu, hmd⟩ := h
  subst hmd
  simp only [byPart, Option.some.injEq] at hku
  subst hku
  refine ⟨rfl, ?_⟩
  intro v hv
  apply mem_sortStrs.mpr
  apply foldl_stepStmt_used_subset
  apply (wherePart_inv hfu).2
  exact mem_foldl_addUsed _ _ _ (List.mem_map_of_mem nodeToString hv)

/-- The record the extractor computes for the C10 witness step
`DATA t; MERGE u v; BY customer_id; RUN;` (the BY variable occurs
nowhere else). -/
def c10_md : Metadata :=
  { inputs := ["u", "v"], outputs := ["t"], columns_created := [],
    columns_used := ["customer_id"], filters := [], keys := ["customer_id"],
    operation := "data_step" }

/-- C10 (witness): the BY-only variable shows up both as the key and in
the sorted used-column list. -/
theorem c10_witness :
    c10_md.keys = ([Node.var "customer_id"]).map nodeToString ∧
    nodeToString (Node.var "customer_id") ∈ c10_md.columns_used := by
  have := c10_by_variables (some (.datasetRef none "t"))
    none
    (some (.mergeStatement [.datasetRef none "u", .datasetRef none "v"] []))
    none [.var "customer_id"] [] c10_md rfl
  exact ⟨this.1, this.2 (.var "customer_id") (by simp)⟩

/-- The record of the earlier C6 witness step `DATA dup; SET a; RUN;`. -/
def c6_md1 : Metadata :=
  { inputs := ["a"], outputs := ["dup"], columns_created := [],
    columns_used := [], filters := [], keys := [], operation := "data_step" }

/-- The record of the later C6 witness step `DATA dup; SET b; RUN;`. -/
def c6_md2 : Metadata :=
  { inputs := ["b"], outputs := ["dup"], columns_created := [],
    columns_used := [], filters := [], keys := [], operation := "data_step" }

/-- C6 (witness): two steps recreating `dup` — the final map holds one
entry, the later step's record. -/
theorem c6_witness :
    extract_lineage (.program
      [.dataStep (some (.datasetRef none "dup"))
        (some (.setStatement (.datasetRef none "a") [])) none none none [],
       .dataStep (some (.datasetRef none "dup"))
        (some (.setStatement (.datasetRef none "b") [])) none none none []]) =
      some [("dup", c6_md2)] ∧
    (extract_lineage (.program
      [.dataStep (some (.datasetRef none "dup"))
        (some (.setStatement (.datasetRef none "a") [])) none none none [],
       .dataStep (some (.datasetRef none "dup"))
        (some (.setStatement (.datasetRef none "b") [])) none none none []])).bind
      (dictLookup "dup") = some c6_md2 :=
  c6_last_write_wins
    (some (.datasetRef none "dup")) (some (.setStatement (.datasetRef none "a") []))
    none none none []
    (some (.datasetRef none "dup")) (some (.setStatement (.datasetRef none "b") []))
    none none none []
    c6_md1 c6_md2 "dup" [] [] rfl rfl rfl rfl
